import Mathlib

/-!
Verification of the Summer Olympics medal dashboard core (two near-duplicate
Streamlit dashboards: `app.py` and the unnamed variant `part_000`).

The shallow embedding models the one piece of reusable logic: the
filter-and-aggregate pipeline from a raw medal-records table to the derived
views each chart consumes.  Tables are lists of records; a raw CSV cell that
is missing or non-numeric (pandas `to_numeric(errors="coerce")` produces NaN)
is modelled as `Option.none`.  pandas string helpers `.str.strip()` and
`.str.lower()` are embedded as executable functions on the character list of
a `String`.  Percentages rounded to one decimal are represented exactly as an
integer number of tenths (40.9 percent is the integer 409), since binary
floats have no exact embedding and every value the dashboards compare is
determined by its tenths value.
-/

namespace Olympics

/-- One row of the raw CSV after parsing and numeric coercion
(`pd.to_numeric(..., errors="coerce")`): a missing or non-numeric cell is
`Option.none`. -/
structure RawRecord where
  Country : Option String
  Year : Option Int
  Rank : Option Int
  Golds : Option Int
  Silvers : Option Int
  Bronzes : Option Int
  Medals : Option Int
deriving DecidableEq, Repr

/-- One row of the canonical cleaned table produced by the `part_000`
`load_data`: Country present and trimmed, Year and Medals present, the
remaining numeric columns possibly still missing. -/
structure MedalRecord where
  Country : String
  Year : Int
  Rank : Option Int
  Golds : Option Int
  Silvers : Option Int
  Bronzes : Option Int
  Medals : Int
deriving DecidableEq, Repr

/-- The canonical in-memory table. -/
abbrev Table := List MedalRecord

/-- pandas `.str.strip()`: drop whitespace from both ends of the string. -/
def strTrim (s : String) : String :=
  String.mk (((s.data.dropWhile Char.isWhitespace).reverse.dropWhile
    Char.isWhitespace).reverse)

/-- pandas `.str.lower()`: lowercase every character. -/
def strLower (s : String) : String :=
  String.mk (s.data.map Char.toLower)

/-- The placeholder-country test of `part_000` line 80:
`.isin(["nan","none","","n/a"])`, applied to the lowered trimmed Country. -/
def isPlaceholder (s : String) : Bool :=
  s = "nan" || s = "none" || s = "" || s = "n/a"

/-- Row-level cleaning of the `part_000` `load_data` (lines 69-83): drop rows
with a truly missing Country, trim the Country string, drop rows whose
lowered Country is a stringified placeholder, and drop rows missing Year or
Medals (Year is then an integer). -/
def cleanRow (r : RawRecord) : Option MedalRecord :=
  match r.Country, r.Year, r.Medals with
  | some c, some y, some m =>
      if isPlaceholder (strLower (strTrim c)) then Option.none
      else some { Country := strTrim c, Year := y, Rank := r.Rank,
                  Golds := r.Golds, Silvers := r.Silvers,
                  Bronzes := r.Bronzes, Medals := m }
  | _, _, _ => Option.none

/-- `part_000` `load_data` (lines 69-83): clean every row of the parsed CSV. -/
def load_data (raw : List RawRecord) : Table :=
  raw.filterMap cleanRow

/-- `app.py` `load_data` (lines 42-47): trims the column headers and casts
Year to int (which raises when a Year is missing), but performs no row-level
cleaning whatsoever — rows are returned unchanged. -/
def app_load_data (raw : List RawRecord) : Option (List RawRecord) :=
  if raw.all (fun r => r.Year.isSome) then some raw else Option.none

/-- The medal-type radio selection (`["Golds","Silvers","Bronzes","Medals"]`). -/
inductive MedalType
  | Golds
  | Silvers
  | Bronzes
  | Medals
deriving DecidableEq, Repr

/-- The column of the canonical table selected by the medal-type radio; a
still-missing Golds/Silvers/Bronzes cell contributes 0 to pandas sums
(`skipna=True`). -/
def medalVal (mt : MedalType) (r : MedalRecord) : Int :=
  match mt with
  | MedalType.Golds => r.Golds.getD 0
  | MedalType.Silvers => r.Silvers.getD 0
  | MedalType.Bronzes => r.Bronzes.getD 0
  | MedalType.Medals => r.Medals

/-- The year-range filter `dff` (`app.py` lines 82-83, `part_000` line 120):
`df[(df["Year"] >= year_range[0]) & (df["Year"] <= year_range[1])]`. -/
def filterByYearRange (T : Table) (a b : Int) : Table :=
  T.filter (fun r => decide (a ≤ r.Year ∧ r.Year ≤ b))

/-- The distinct countries of a table, in first-kept order of `List.dedup`. -/
def countryNames (T : Table) : List String :=
  (T.map (fun r => r.Country)).dedup

/-- Code-point comparison of character lists, the order pandas uses for its
sorted group keys. -/
def charLeList : List Char → List Char → Bool
  | [], _ => true
  | _ :: _, [] => false
  | c :: cs, d :: ds => if c < d then true else if d < c then false else charLeList cs ds

/-- Lexicographic string comparison on code points. -/
def strLe (a b : String) : Bool :=
  charLeList a.data b.data

/-- Sort a list of strings ascending (stable insertion sort). -/
def sortStrings (l : List String) : List String :=
  List.insertionSort (fun a b => strLe a b = true) l

/-- The group keys of `groupby("Country")`: pandas sorts the distinct
countries ascending (`sort=True` is the default). -/
def countriesSorted (T : Table) : List String :=
  sortStrings (countryNames T)

/-- Sum a numeric column over the rows of one country:
`groupby("Country")[col].sum()` evaluated at one group key. -/
def sumBy (T : Table) (f : MedalRecord → Int) (c : String) : Int :=
  ((T.filter (fun r => decide (r.Country = c))).map f).sum

/-- `groupby("Country")[medal_type].sum()`: one `(country, sum)` pair per
distinct country, in sorted key order. -/
def groupSumByCountry (T : Table) (mt : MedalType) : List (String × Int) :=
  (countriesSorted T).map (fun c => (c, sumBy T (medalVal mt) c))

/-- pandas `Series.nlargest(n)` with the default `keep="first"`: stable sort
by value descending, then take the first `n` entries; ties keep the earlier
entry of the input order. -/
def nlargest (n : Nat) (l : List (String × Int)) : List (String × Int) :=
  (List.insertionSort (fun a b => b.2 ≤ a.2) l).take n

/-- The shared ranking primitive behind `top_df` (`app.py` lines 115-121) and
`bar_df` (`part_000` lines 148-154): group by Country, sum the selected medal
column, keep the `n` largest. -/
def topByMedalType (T : Table) (mt : MedalType) (n : Nat) : List (String × Int) :=
  nlargest n (groupSumByCountry T mt)

/-- The top-`n` country names by total Medals
(`groupby("Country")["Medals"].sum().nlargest(n).index`). -/
def topMedalCountries (T : Table) (n : Nat) : List String :=
  (topByMedalType T MedalType.Medals n).map (fun e => e.1)

/-- The all-time-leader KPI `dff.groupby("Country")["Medals"].sum().idxmax()`
(`app.py` line 100, `part_000` line 136): label of the first maximal group in
sorted key order; `idxmax` raises on an empty table, modelled as `none`. -/
def top_country (T : Table) : Option String :=
  match topByMedalType T MedalType.Medals 1 with
  | [] => Option.none
  | e :: _ => some e.1

/-- The per-row decade `dff["Year"] // 10 * 10` (Python floor division). -/
def decadeOf (y : Int) : Int :=
  Int.fdiv y 10 * 10

/-- One cell of `heat_df` (`app.py` lines 210-217, `part_000` lines 253-263):
restrict to the top-`n` countries by total Medals, group by
`(Country, Decade)` summing Medals, `unstack(fill_value=0)`; the cell at
`(c, d)` is the sum of Medals over the restricted rows with that Country and
that Decade, and 0 when no such row exists. -/
def heatCell (T : Table) (n : Nat) (c : String) (d : Int) : Int :=
  (((T.filter (fun r => decide (r.Country ∈ topMedalCountries T n))).filter
      (fun r => decide (r.Country = c ∧ decadeOf r.Year = d))).map
    (fun r => r.Medals)).sum

/-- Ascending order on the `(Year, Country)` group keys of the trend view. -/
def keyLe (a b : Int × String) : Bool :=
  if a.1 < b.1 then true else if b.1 < a.1 then false else strLe a.2 b.2

/-- The sorted distinct `(Year, Country)` keys of `groupby(["Year","Country"])`. -/
def trendKeys (S : Table) : List (Int × String) :=
  List.insertionSort (fun a b => keyLe a b = true)
    ((S.map (fun r => (r.Year, r.Country))).dedup)

/-- `trend_df` (`app.py` lines 167-173, `part_000` lines 204-210): restrict to
the spotlight countries, group by `(Year, Country)`, sum the selected medal
column. -/
def trendOverTime (T : Table) (countries : List String) (mt : MedalType) :
    List ((Int × String) × Int) :=
  let S := T.filter (fun r => decide (r.Country ∈ countries))
  (trendKeys S).map (fun k =>
    (k, ((S.filter (fun r => decide (r.Year = k.1 ∧ r.Country = k.2))).map
      (medalVal mt)).sum))

/-- Total Golds of one country over the table. -/
def totalGolds (T : Table) (c : String) : Int :=
  sumBy T (fun r => r.Golds.getD 0) c

/-- Total Medals of one country over the table. -/
def totalMedals (T : Table) (c : String) : Int :=
  sumBy T (fun r => r.Medals) c

/-- Round the quotient `a / b` (with `b > 0`) to the nearest integer, ties to
even — the rounding of numpy, which pandas `.round(1)` applies at scale 10. -/
def roundDivHalfEven (a b : Int) : Int :=
  let q := a / b
  let r := a % b
  if 2 * r < b then q else if b < 2 * r then q + 1 else if q % 2 = 0 then q else q + 1

/-- `(Golds / Medals * 100).round(1)` expressed in integer tenths of a
percent: `round(100 * g / m, 1) = goldPercentTenths g m / 10`. -/
def goldPercentTenths (g m : Int) : Int :=
  roundDivHalfEven (1000 * g) m

/-- The grouped sums behind `conv_df` (`part_000` line 307):
`dff.groupby("Country")[["Golds","Medals"]].sum()` as
`(country, golds, medals)` triples in sorted key order. -/
def convRows (T : Table) : List (String × Int × Int) :=
  (countriesSorted T).map (fun c => (c, totalGolds T c, totalMedals T c))

/-- The threshold filter `conv_df[conv_df["Medals"] >= 20]`
(`part_000` line 308). -/
def convKept (T : Table) : List (String × Int × Int) :=
  (convRows T).filter (fun e => decide (20 ≤ e.2.2))

/-- The `Gold %` column (`part_000` line 309), in integer tenths. -/
def convPercents (T : Table) : List (String × Int) :=
  (convKept T).map (fun e => (e.1, goldPercentTenths e.2.1 e.2.2))

/-- `conv_df.nlargest(top_n, "Gold %")` (`part_000` line 310): the gold
conversion view, values in integer tenths of a percent. -/
def goldConversionRate (T : Table) (n : Nat) : List (String × Int) :=
  nlargest n (convPercents T)

/-- The three-row scenario table of the specification:
USA 2016, USA 2012, CHN 2016. -/
def exampleT : Table :=
  [{ Country := "USA", Year := 2016, Rank := some 1, Golds := some 46,
     Silvers := some 37, Bronzes := some 38, Medals := 121 },
   { Country := "USA", Year := 2012, Rank := some 1, Golds := some 46,
     Silvers := some 29, Bronzes := some 29, Medals := 104 },
   { Country := "CHN", Year := 2016, Rank := some 2, Golds := some 26,
     Silvers := some 18, Bronzes := some 26, Medals := 70 }]

/-- Two countries with equal total Medals, the alphabetically later one first
in input order: exercises the tie-break of the ranking primitive. -/
def tieT : Table :=
  [{ Country := "Brazil", Year := 2000, Rank := Option.none, Golds := some 2,
     Silvers := some 2, Bronzes := some 1, Medals := 5 },
   { Country := "Austria", Year := 2000, Rank := Option.none, Golds := some 3,
     Silvers := some 1, Bronzes := some 1, Medals := 5 }]

/-- A raw row whose Country is the placeholder string " n/a " (whitespace
padded, so the CSV parser keeps it as a string). -/
def rawNA : RawRecord :=
  { Country := some " n/a ", Year := some 2000, Rank := Option.none,
    Golds := some 1, Silvers := some 0, Bronzes := some 0, Medals := some 1 }

/-- A well-formed raw row (Country padded with whitespace). -/
def rawGood : RawRecord :=
  { Country := some " USA ", Year := some 2016, Rank := some 1,
    Golds := some 46, Silvers := some 37, Bronzes := some 38,
    Medals := some 121 }

/-- What a successful row cleaning guarantees: the stored Country fails the
placeholder test and the Medals value is the one of the raw row. -/
theorem cleanRow_spec {r : RawRecord} {rec : MedalRecord}
    (h : cleanRow r = some rec) :
    isPlaceholder (strLower rec.Country) = false ∧ rec.Medals = r.Medals.getD 0 := by
  unfold cleanRow at h
  rcases hC : r.Country with _ | c <;> rw [hC] at h
  · simp at h
  · rcases hY : r.Year with _ | y <;> rw [hY] at h
    · simp at h
    · rcases hM : r.Medals with _ | m <;> rw [hM] at h
      · simp at h
      · dsimp only at h
        by_cases hp : isPlaceholder (strLower (strTrim c)) = true
        · rw [if_pos hp] at h
          simp at h
        · rw [if_neg hp] at h
          injection h with h2
          subst h2
          exact ⟨by simpa using hp, rfl⟩

/-- Membership in an `nlargest` result implies membership in the input. -/
theorem mem_of_mem_nlargest {n : Nat} {l : List (String × Int)}
    {e : String × Int} (h : e ∈ nlargest n l) : e ∈ l := by
  simp only [nlargest] at h
  exact (List.perm_insertionSort (fun a b => b.2 ≤ a.2) l).mem_iff.mp
    ((List.take_sublist n _).subset h)

/-- An `nlargest` result is sorted with non-increasing values. -/
theorem sorted_nlargest (n : Nat) (l : List (String × Int)) :
    List.Sorted (fun a b : String × Int => b.2 ≤ a.2) (nlargest n l) := by
  haveI : IsTotal (String × Int) (fun a b => b.2 ≤ a.2) :=
    ⟨fun a b => le_total b.2 a.2⟩
  haveI : IsTrans (String × Int) (fun a b => b.2 ≤ a.2) :=
    ⟨fun _ _ _ h1 h2 => le_trans h2 h1⟩
  exact (List.sorted_insertionSort _ l).sublist (List.take_sublist _ _)

/-- Every input entry left out of an `nlargest` result has a value at most
that of every entry in the result. -/
theorem nlargest_max {n : Nat} {l : List (String × Int)} {e1 e2 : String × Int}
    (h1 : e1 ∈ nlargest n l) (h2 : e2 ∈ l) (h3 : e2 ∉ nlargest n l) :
    e2.2 ≤ e1.2 := by
  haveI : IsTotal (String × Int) (fun a b => b.2 ≤ a.2) :=
    ⟨fun a b => le_total b.2 a.2⟩
  haveI : IsTrans (String × Int) (fun a b => b.2 ≤ a.2) :=
    ⟨fun _ _ _ hx hy => le_trans hy hx⟩
  simp only [nlargest] at h1 h3
  have hsorted : List.Pairwise (fun a b : String × Int => b.2 ≤ a.2)
      (List.insertionSort (fun a b => b.2 ≤ a.2) l) :=
    List.sorted_insertionSort _ l
  have h2s : e2 ∈ List.insertionSort (fun a b => b.2 ≤ a.2) l :=
    (List.perm_insertionSort _ l).mem_iff.mpr h2
  have hsplit := List.take_append_drop n (List.insertionSort (fun a b => b.2 ≤ a.2) l)
  have h2drop : e2 ∈ List.drop n (List.insertionSort (fun a b => b.2 ≤ a.2) l) := by
    rcases List.mem_append.mp (by rw [hsplit]; exact h2s) with hx | hx
    · exact absurd hx h3
    · exact hx
  exact (List.pairwise_append.mp (by rw [hsplit]; exact hsorted)).2.2 e1 h1 e2 h2drop

/-- Length of an `nlargest` result. -/
theorem nlargest_length (n : Nat) (l : List (String × Int)) :
    (nlargest n l).length = min n l.length := by
  simp [nlargest, List.length_take, List.length_insertionSort]

/-- A nonempty table has a well-defined all-time leader. -/
theorem top_country_isSome_of_ne_nil {S : Table} (hS : S ≠ []) :
    (top_country S).isSome = true := by
  have h1 : countryNames S ≠ [] := by
    intro hcn
    exact hS (List.map_eq_nil_iff.mp ((List.dedup_eq_nil _).mp hcn))
  have h2 : 0 < (groupSumByCountry S MedalType.Medals).length := by
    simp only [groupSumByCountry, List.length_map, countriesSorted, sortStrings,
      List.length_insertionSort]
    exact List.length_pos.mpr h1
  have h3 : topByMedalType S MedalType.Medals 1 ≠ [] := by
    intro hnil
    have hlen := congrArg List.length hnil
    simp only [topByMedalType, nlargest_length, List.length_nil] at hlen
    omega
  rcases htc : topByMedalType S MedalType.Medals 1 with _ | ⟨e, rest⟩
  · exact absurd htc h3
  · unfold top_country
    rw [htc]
    rfl

/-- A decade value (a multiple of 10) is hit by exactly the years of its
ten-year interval. -/
theorem decade_interval (y d : Int) (hd : d % 10 = 0) :
    decadeOf y = d ↔ d ≤ y ∧ y ≤ d + 9 := by
  unfold decadeOf
  rw [Int.fdiv_eq_ediv y (by norm_num)]
  omega

/-- C1 (amended): placeholder countries are dropped during cleaning in the
`part_000` implementation — no row returned by its `load_data` has a stored
(trimmed) Country that compares case-insensitively equal to one of
"nan", "none", "", "n/a".  The `app.py` implementation performs no Country
cleaning: whenever every Year is present it returns the rows unchanged,
placeholder Countries included. -/
theorem load_drops_placeholder_countries :
    (∀ (raw : List RawRecord) (rec : MedalRecord), rec ∈ load_data raw →
      isPlaceholder (strLower rec.Country) = false) ∧
    (∀ raw : List RawRecord, (∀ r ∈ raw, r.Year.isSome = true) →
      app_load_data raw = some raw) := by
  constructor
  · intro raw rec hmem
    obtain ⟨r, _, hr⟩ := List.mem_filterMap.mp hmem
    exact (cleanRow_spec hr).1
  · intro raw h
    unfold app_load_data
    rw [if_pos (List.all_eq_true.mpr h)]

/-- C1 witness: the two halves of the amended claim at concrete inputs. -/
theorem load_drops_placeholder_countries_witness :
    isPlaceholder (strLower "USA") = false ∧
    app_load_data [rawGood] = some [rawGood] :=
  ⟨load_drops_placeholder_countries.1 [rawGood]
      { Country := "USA", Year := 2016, Rank := some 1, Golds := some 46,
        Silvers := some 37, Bronzes := some 38, Medals := 121 } (by decide),
   load_drops_placeholder_countries.2 [rawGood] (by decide)⟩

/-- C1 counterexample: the `app.py` `load_data` returns a table containing a
row whose trimmed Country, compared case-insensitively, is the placeholder
"n/a" — so the claim fails for that implementation. -/
theorem app_load_keeps_placeholder_country :
    app_load_data [rawNA] = some [rawNA] ∧
    rawNA.Country = some " n/a " ∧
    isPlaceholder (strLower (strTrim " n/a ")) = true := by
  decide

/-- C2 (amended): neither implementation validates FilterParameters and no
ParameterError exists; `yearMin > yearMax` silently yields the empty filtered
table, and `topN = 0` silently yields an empty ranking view. -/
theorem no_parameter_validation :
    (∀ (T : Table) (a b : Int), b < a → filterByYearRange T a b = []) ∧
    (∀ (T : Table) (mt : MedalType), topByMedalType T mt 0 = []) := by
  constructor
  · intro T a b hba
    refine List.filter_eq_nil_iff.mpr ?_
    intro r _
    simp only [decide_eq_true_eq]
    omega
  · intro T mt
    rfl

/-- C2 witness: the amended claim at concrete inputs. -/
theorem no_parameter_validation_witness :
    filterByYearRange exampleT 2020 2000 = [] ∧
    topByMedalType exampleT MedalType.Medals 0 = [] :=
  ⟨no_parameter_validation.1 exampleT 2020 2000 (by decide),
   no_parameter_validation.2 exampleT MedalType.Medals⟩

/-- C2 counterexample: on a malformed year range (yearMin 2020 > yearMax
2000) the pipeline does not fail — it silently produces (empty) views. -/
theorem malformed_params_silently_yield_views :
    filterByYearRange exampleT 2020 2000 = [] ∧
    topByMedalType (filterByYearRange exampleT 2020 2000) MedalType.Medals 10 = [] ∧
    goldConversionRate (filterByYearRange exampleT 2020 2000) 10 = [] := by
  decide

/-- C6: `filterByYearRange` keeps exactly the rows with
`yearMin ≤ Year ≤ yearMax`, both bounds inclusive: membership is
characterized by the bounds, and each row is kept with its exact
multiplicity. -/
theorem filterByYearRange_rows :
    ∀ (T : Table) (a b : Int) (r : MedalRecord),
      (r ∈ filterByYearRange T a b ↔ r ∈ T ∧ a ≤ r.Year ∧ r.Year ≤ b) ∧
      List.count r (filterByYearRange T a b) =
        if a ≤ r.Year ∧ r.Year ≤ b then List.count r T else 0 := by
  intro T a b r
  constructor
  · simp [filterByYearRange, List.mem_filter, and_assoc]
  · by_cases h : a ≤ r.Year ∧ r.Year ≤ b
    · rw [if_pos h]
      exact List.count_filter (by simpa using h)
    · rw [if_neg h]
      refine List.count_eq_zero.mpr ?_
      intro hmem
      have h2 := (List.mem_filter.mp hmem).2
      simp only [decide_eq_true_eq] at h2
      exact h h2

/-- C7: with an empty spotlight-country set the trend view is the empty
table, for every input table and medal type — never an error. -/
theorem trendOverTime_empty_countries :
    ∀ (T : Table) (mt : MedalType), trendOverTime T [] mt = [] := by
  intro T mt
  simp only [trendOverTime]
  have hS : T.filter (fun r => decide (r.Country ∈ ([] : List String))) = [] := by
    simp
  rw [hS]
  rfl

/-- C3: every entry of the gold-conversion view belongs to a country whose
summed Medals over the table is at least 20 and carries exactly
`round(100 * totalGolds / totalMedals, 1)` (in integer tenths of a percent);
every thresholded country left out has a percentage at most that of every
returned entry; and on the three-row specification table the view is
USA 40.9 percent, CHN 37.1 percent, with USA the top-1 by rate. -/
theorem goldConversionRate_spec :
    (∀ (T : Table) (n : Nat) (e : String × Int), e ∈ goldConversionRate T n →
      20 ≤ totalMedals T e.1 ∧
      e.2 = goldPercentTenths (totalGolds T e.1) (totalMedals T e.1)) ∧
    (∀ (T : Table) (n : Nat) (e1 e2 : String × Int), e1 ∈ goldConversionRate T n →
      e2 ∈ convPercents T → e2 ∉ goldConversionRate T n → e2.2 ≤ e1.2) ∧
    goldConversionRate exampleT 2 = [("USA", 409), ("CHN", 371)] ∧
    (goldConversionRate exampleT 1).map Prod.fst = ["USA"] := by
  refine ⟨?_, ?_, by decide, by decide⟩
  · intro T n e he
    have h1 : e ∈ convPercents T := mem_of_mem_nlargest he
    simp only [convPercents, convKept, convRows, List.mem_map,
      List.mem_filter] at h1
    obtain ⟨t, ⟨⟨c, hc, rfl⟩, hkept⟩, rfl⟩ := h1
    exact ⟨by simpa using hkept, rfl⟩
  · intro T n e1 e2 h1 h2 h3
    exact nlargest_max h1 h2 h3

/-- C3 witness: the general entry property at USA in the example table. -/
theorem goldConversionRate_spec_witness :
    20 ≤ totalMedals exampleT "USA" ∧
    (409 : Int) = goldPercentTenths (totalGolds exampleT "USA")
      (totalMedals exampleT "USA") :=
  goldConversionRate_spec.1 exampleT 2 ("USA", 409) (by decide)

/-- C4: the top-by-Medals ranking has length `min n (distinct countries)`;
read in descending viewing order its values are non-increasing; and on a
table where "Brazil" precedes "Austria" in input order but both total 5
Medals, the tie goes to "Austria", the first country in the (sorted)
grouping order. -/
theorem topByMedalType_ranking (T : Table) (n : Nat) (h : 0 < n) :
    (topByMedalType T MedalType.Medals n).length = min n (countryNames T).length ∧
    List.Sorted (fun a b : String × Int => b.2 ≤ a.2)
      (topByMedalType T MedalType.Medals n) ∧
    topByMedalType tieT MedalType.Medals 1 = [("Austria", 5)] := by
  refine ⟨?_, sorted_nlargest _ _, by decide⟩
  have hlen : (groupSumByCountry T MedalType.Medals).length = (countryNames T).length := by
    simp [groupSumByCountry, countriesSorted, sortStrings, List.length_insertionSort]
  simp [topByMedalType, nlargest_length, hlen]

/-- C4 witness: the ranking properties at the example table with n = 2. -/
theorem topByMedalType_ranking_witness :
    (topByMedalType exampleT MedalType.Medals 2).length =
      min 2 (countryNames exampleT).length ∧
    List.Sorted (fun a b : String × Int => b.2 ≤ a.2)
      (topByMedalType exampleT MedalType.Medals 2) ∧
    topByMedalType tieT MedalType.Medals 1 = [("Austria", 5)] :=
  topByMedalType_ranking exampleT 2 (by decide)

/-- C5: for a country among the top-n by total Medals and a decade value d
(a multiple of 10), the heatmap cell at (c, d) is the sum of Medals over the
rows with that Country and Year in [d, d + 9]; a pair with no such rows
yields a cell of 0. -/
theorem decadeHeatmap_cell (T : Table) (n : Nat) (c : String) (d : Int)
    (hc : c ∈ topMedalCountries T n) (hd : d % 10 = 0) :
    heatCell T n c d =
      ((T.filter (fun r => decide (r.Country = c ∧ d ≤ r.Year ∧ r.Year ≤ d + 9))).map
        (fun r => r.Medals)).sum ∧
    ((∀ r ∈ T, ¬(r.Country = c ∧ d ≤ r.Year ∧ r.Year ≤ d + 9)) →
      heatCell T n c d = 0) := by
  have hmain : heatCell T n c d =
      ((T.filter (fun r => decide (r.Country = c ∧ d ≤ r.Year ∧ r.Year ≤ d + 9))).map
        (fun r => r.Medals)).sum := by
    unfold heatCell
    rw [List.filter_filter]
    have hfilter : T.filter
        (fun a => decide (a.Country = c ∧ decadeOf a.Year = d) &&
          decide (a.Country ∈ topMedalCountries T n)) =
        T.filter (fun r => decide (r.Country = c ∧ d ≤ r.Year ∧ r.Year ≤ d + 9)) := by
      apply List.filter_congr
      intro r _
      rw [Bool.eq_iff_iff]
      simp only [Bool.and_eq_true, decide_eq_true_eq]
      constructor
      · rintro ⟨⟨hcc, hdec⟩, _⟩
        exact ⟨hcc, (decade_interval r.Year d hd).mp hdec⟩
      · rintro ⟨hcc, hy1, hy2⟩
        exact ⟨⟨hcc, (decade_interval r.Year d hd).mpr ⟨hy1, hy2⟩⟩,
          by rw [hcc]; exact hc⟩
    rw [hfilter]
  refine ⟨hmain, ?_⟩
  intro hnone
  rw [hmain]
  have hnil : T.filter (fun r => decide (r.Country = c ∧ d ≤ r.Year ∧ r.Year ≤ d + 9)) = [] := by
    refine List.filter_eq_nil_iff.mpr ?_
    intro r hr
    simp only [decide_eq_true_eq]
    exact hnone r hr
  rw [hnil]
  rfl

/-- C5 witness: the heatmap cell property at (USA, 2010) over the example
table with n = 2. -/
theorem decadeHeatmap_cell_witness :
    heatCell exampleT 2 "USA" 2010 =
      ((exampleT.filter
        (fun r => decide (r.Country = "USA" ∧ 2010 ≤ r.Year ∧ r.Year ≤ 2010 + 9))).map
        (fun r => r.Medals)).sum ∧
    ((∀ r ∈ exampleT, ¬(r.Country = "USA" ∧ 2010 ≤ r.Year ∧ r.Year ≤ 2010 + 9)) →
      heatCell exampleT 2 "USA" 2010 = 0) :=
  decadeHeatmap_cell exampleT 2 "USA" 2010 (by decide) (by decide)

/-- C8: over any raw table whose present Medals values are non-negative (the
data-model constraint on valid input), the summed Medals column of the
cleaned table is at most the summed raw Medals column — cleaning only
removes rows, never fabricates medals.  pandas sums skip missing cells, so a
missing raw Medals contributes 0. -/
theorem cleaning_never_inflates_medals (raw : List RawRecord)
    (h : ∀ r ∈ raw, 0 ≤ r.Medals.getD 0) :
    ((load_data raw).map (fun r => r.Medals)).sum ≤
      (raw.map (fun r => r.Medals.getD 0)).sum := by
  induction raw with
  | nil => simp [load_data]
  | cons r t ih =>
    have ht := ih (fun x hx => h x (List.mem_cons_of_mem _ hx))
    have hr : (0 : Int) ≤ r.Medals.getD 0 := h r (List.mem_cons_self _ _)
    rw [List.map_cons, List.sum_cons]
    have hl : load_data (r :: t) =
        match cleanRow r with
        | Option.none => load_data t
        | some rec => rec :: load_data t := by
      simp only [load_data, List.filterMap_cons]
      cases cleanRow r <;> rfl
    rw [hl]
    cases hcr : cleanRow r with
    | none =>
      calc ((load_data t).map (fun x => x.Medals)).sum
          ≤ (t.map (fun x => x.Medals.getD 0)).sum := ht
        _ ≤ r.Medals.getD 0 + (t.map (fun x => x.Medals.getD 0)).sum := by linarith
    | some rec =>
      rw [List.map_cons, List.sum_cons, (cleanRow_spec hcr).2]
      exact add_le_add_left ht _

/-- C8 witness: the sum inequality at a concrete two-row raw table. -/
theorem cleaning_never_inflates_medals_witness :
    ((load_data [rawGood, rawNA]).map (fun r => r.Medals)).sum ≤
      ([rawGood, rawNA].map (fun r => r.Medals.getD 0)).sum :=
  cleaning_never_inflates_medals [rawGood, rawNA] (by decide)

/-- C9: every country kept by the gold-conversion threshold filter has
summed Medals at least 20, hence a nonzero denominator — the division in the
percent computation never divides by zero. -/
theorem conversion_denominator_nonzero :
    ∀ (T : Table) (e : String × Int × Int), e ∈ convKept T →
      20 ≤ e.2.2 ∧ e.2.2 ≠ 0 := by
  intro T e he
  simp only [convKept] at he
  have h2 := (List.mem_filter.mp he).2
  simp only [decide_eq_true_eq] at h2
  exact ⟨h2, by omega⟩

/-- C9 witness: the kept entry (CHN, 26, 70) of the example table. -/
theorem conversion_denominator_nonzero_witness :
    (20 : Int) ≤ 70 ∧ (70 : Int) ≠ 0 :=
  conversion_denominator_nonzero exampleT ("CHN", 26, 70) (by decide)

/-- C10: when both bounds of the year range occur as Years of the canonical
table and the range is non-degenerate, the filtered table is non-empty and
the all-time-leader KPI (`idxmax` of summed Medals per country) is
well-defined. -/
theorem kpi_defined_on_valid_range (T : Table) (a b : Int) (hab : a ≤ b)
    (ha : ∃ r ∈ T, r.Year = a) (hb : ∃ r ∈ T, r.Year = b) :
    filterByYearRange T a b ≠ [] ∧
    (top_country (filterByYearRange T a b)).isSome = true := by
  obtain ⟨r0, hr0, hy0⟩ := ha
  have hmem : r0 ∈ filterByYearRange T a b := by
    refine List.mem_filter.mpr ⟨hr0, ?_⟩
    simp only [decide_eq_true_eq]
    omega
  have hne : filterByYearRange T a b ≠ [] := List.ne_nil_of_mem hmem
  exact ⟨hne, top_country_isSome_of_ne_nil hne⟩

/-- C10 witness: the KPI is well-defined on the example table over the range
[2012, 2016], both of which are Years of the table. -/
theorem kpi_defined_on_valid_range_witness :
    filterByYearRange exampleT 2012 2016 ≠ [] ∧
    (top_country (filterByYearRange exampleT 2012 2016)).isSome = true :=
  kpi_defined_on_valid_range exampleT 2012 2016 (by decide) (by decide) (by decide)

end Olympics
